import Mathlib

/-!
Secret-detection store and vulnerability-statistic store

A shallow embedding of `secret_detection.go` and `vuln_statistic.go`.

* A database table is the list of its rows (in insertion order) together with
  the next auto-increment key.  Queries are filters over that list; string
  comparison in a `WHERE` clause is exact equality.
* The clock is an input: every call receives the instant `now` that
  `time.Now().UTC()` reads, one instant for the whole call.
* An instant is its number of nanoseconds since the Unix epoch, in UTC.
* `int64` values are integers; the only arithmetic done on them (`+=` on a
  bucket) wraps around as Go's does, see `wrapInt64`.
* A run-time panic (indexing a slice out of range) is the result `none`.
-/

namespace Repo

/-! ## Integers and time -/

/-- Two's-complement reduction of an integer to the `int64` range. -/
def wrapInt64 (x : Int) : Int :=
  (x + 9223372036854775808) % 18446744073709551616 - 9223372036854775808

/-- Nanoseconds in 24 hours. -/
def nsPerDay : Int := 86400000000000

/-- Nanoseconds in 7 days. -/
def nsPerWeek : Int := 604800000000000

/-- Largest `time.Duration`. -/
def maxDuration : Int := 9223372036854775807

/-- Smallest `time.Duration`. -/
def minDuration : Int := -9223372036854775808

/-- The zero `time.Time`, January 1 of year 1, 00:00 UTC. -/
def zeroTime : Int := -62135596800000000000

/-- Go `t.Truncate(24 * time.Hour)`: rounds down to a multiple of 24 hours
since the zero time, which for a UTC instant is the midnight of its day. -/
def Truncate24h (t : Int) : Int := t - t % nsPerDay

/-- Go `t.AddDate(0, 0, n)` on a UTC instant. -/
def AddDays (t : Int) (n : Int) : Int := t + n * nsPerDay

/-- Go `t.Sub(u)`: the difference as a `Duration`, saturating at the ends of
the `int64` range. -/
def Sub (t u : Int) : Int :=
  if minDuration ≤ t - u ∧ t - u ≤ maxDuration then t - u
  else if t < u then minDuration else maxDuration

/-- Go `int(d.Hours() / 24)`: the number of whole days in a duration, the
conversion to `int` truncating toward zero.  (The floating-point quotient
has the same integer part as the exact one at every bucket boundary.) -/
def wholeDays (d : Int) : Int := Int.tdiv d nsPerDay

/-- Go `int(d.Hours() / (24 * 7))`: whole weeks in a duration, truncating
toward zero. -/
def wholeWeeks (d : Int) : Int := Int.tdiv d nsPerWeek

/-- Day number of an instant: days since 1970-01-01, rounding down. -/
def dayNumber (t : Int) : Int := t / nsPerDay

/-- Go `t.Weekday()` as an integer: Sunday = 0, Monday = 1, ..., Saturday = 6.
1970-01-01 was a Thursday. -/
def Weekday (t : Int) : Int := (dayNumber t + 4) % 7

/-- Year within a 400-year era, from the day within the era (eras start on
March 1 of a year divisible by 400). -/
def yearOfEra (doe : Int) : Int := (doe - doe / 1460 + doe / 36524 - doe / 146096) / 365

/-- Proleptic Gregorian (year, month, day) of a day number. -/
def civilFromDays (z : Int) : Int × Int × Int :=
  let z := z + 719468
  let era := z / 146097
  let doe := z - era * 146097
  let yoe := yearOfEra doe
  let doy := doe - (365 * yoe + yoe / 4 - yoe / 100)
  let mp := (5 * doy + 2) / 153
  let d := doy - (153 * mp + 2) / 5 + 1
  let m := if mp < 10 then mp + 3 else mp - 9
  (if m ≤ 2 then yoe + era * 400 + 1 else yoe + era * 400, m, d)

/-- Day number of the first day of month `m` (1..12) of year `y`. -/
def daysFromCivil (y m : Int) : Int :=
  let y1 := if m ≤ 2 then y - 1 else y
  let era := y1 / 400
  let yoe := y1 - era * 400
  let mp := (m + 9) % 12
  let doy := (153 * mp + 2) / 5
  era * 146097 + (yoe * 365 + yoe / 4 - yoe / 100 + doy) - 719468

/-- Go `t.Year()`. -/
def Year (t : Int) : Int := (civilFromDays (dayNumber t)).1

/-- Go `t.Month()`: January = 1, ..., December = 12. -/
def Month (t : Int) : Int := (civilFromDays (dayNumber t)).2.1

/-- Go `t.Day()`. -/
def Day (t : Int) : Int := (civilFromDays (dayNumber t)).2.2

/-- Go `time.Date(year, month, day, 0, 0, 0, nsec, time.UTC)` with `nsec`
nanoseconds into the day: the month is normalised into 1..12 by carrying into
the year, and a day outside the month carries into the following days. -/
def DateUTC (year month day nsec : Int) : Int :=
  let m0 := month - 1
  let y := year + m0 / 12
  let m := m0 % 12 + 1
  (daysFromCivil y m + (day - 1)) * nsPerDay + nsec

/-- Go `t.AddDate(0, months, 0)` on a UTC instant: same clock time at the
normalised date. -/
def AddMonths (t : Int) (months : Int) : Int :=
  DateUTC (Year t) (Month t + months) (Day t) (t % nsPerDay)

/-! ## Statistic store (`vuln_statistic.go`) -/

/-- A row of the `vuln_statistic` table. -/
structure VulnStatistic where
  ID : Int
  RepoID : Int
  ScanType : String
  VulnQuantity : Int
  Date : Int
deriving DecidableEq, Repr

/-- The `vuln_statistic` table. -/
structure VulnTable where
  rows : List VulnStatistic
  nextID : Int
deriving DecidableEq, Repr

/-- The column values an xorm `Update(bean)` without `Cols`/`AllCols` writes
to a row: only the bean's non-zero fields are assigned (zero integers, empty
strings and zero times are skipped), and the auto-increment key never is. -/
def updateNonZero (bean old : VulnStatistic) : VulnStatistic :=
  { ID := old.ID
    RepoID := if bean.RepoID = 0 then old.RepoID else bean.RepoID
    ScanType := if bean.ScanType = "" then old.ScanType else bean.ScanType
    VulnQuantity := if bean.VulnQuantity = 0 then old.VulnQuantity else bean.VulnQuantity
    Date := if bean.Date = zeroTime then old.Date else bean.Date }

/-- `UpdateVulnScanStatistic` on a database that answers every query. -/
def UpdateVulnScanStatistic (tbl : VulnTable) (now : Int) (repoID : Int)
    (scanType : String) (vulnQuantity : Int) : VulnTable :=
  let currentDate := Truncate24h now
  match tbl.rows.find?
      (fun r => decide (r.RepoID = repoID ∧ r.ScanType = scanType ∧ r.Date = currentDate)) with
  | some existingStat =>
    let existingStat := { existingStat with VulnQuantity := vulnQuantity }
    { tbl with
      rows := tbl.rows.map
        (fun r => if r.ID = existingStat.ID then updateNonZero existingStat r else r) }
  | none =>
    let newStat : VulnStatistic :=
      { ID := tbl.nextID, RepoID := repoID, ScanType := scanType,
        VulnQuantity := vulnQuantity, Date := currentDate }
    { rows := tbl.rows ++ [newStat], nextID := tbl.nextID + 1 }

/-- The three fixed scan types. -/
def scanTypes : List String := ["dependency_vuln", "iac_misconfig", "secret_detection"]

/-- The result map after `result[scanType] = make([]int64, 12)` for each of
the three scan types. -/
def emptyResult : List (String × List Int) :=
  scanTypes.map (fun scanType => (scanType, List.replicate 12 0))

/-- Assignment `m[key] = value` on a map held as an association list. -/
def mapSet {α : Type} (m : List (String × List α)) (key : String) (value : List α) :
    List (String × List α) :=
  match m with
  | [] => [(key, value)]
  | (k, v) :: rest => if k = key then (k, value) :: rest else (k, v) :: mapSet rest key value

/-- Map read `m[key]`: a missing key reads as the nil slice. -/
def mapGet {α : Type} (m : List (String × List α)) (key : String) : List α :=
  match m with
  | [] => []
  | (k, v) :: rest => if k = key then v else mapGet rest key

/-- Element `i` of the sequence stored under `scanType`, 0 where there is none. -/
def bucket (result : List (String × List Int)) (scanType : String) (i : Nat) : Int :=
  (mapGet result scanType).getD i 0

/-- The loop body shared by the three aggregations: with `unitsAgo` the
computed `daysAgo`, `weeksAgo` or `monthsAgo`,
`if unitsAgo >= 0 && unitsAgo < 12 { result[stat.ScanType][11-unitsAgo] += stat.VulnQuantity }`.
Indexing past the end of the slice panics (`none`). -/
def addToBucket (result : List (String × List Int)) (stat : VulnStatistic) (unitsAgo : Int) :
    Option (List (String × List Int)) :=
  if 0 ≤ unitsAgo ∧ unitsAgo < 12 then
    let slice := mapGet result stat.ScanType
    let i := (11 - unitsAgo).toNat
    if i < slice.length then
      some (mapSet result stat.ScanType
        (slice.set i (wrapInt64 (slice.getD i 0 + stat.VulnQuantity))))
    else none
  else some result

/-- The loop `for _, stat := range stats` over the fetched rows. -/
def bucketLoop (unitsAgo : VulnStatistic → Int) :
    List VulnStatistic → List (String × List Int) → Option (List (String × List Int))
  | [], result => some result
  | stat :: stats, result =>
    match addToBucket result stat (unitsAgo stat) with
    | none => none
    | some result => bucketLoop unitsAgo stats result

/-- The query `Where("repo_id = ? AND date >= ?", repoID, startDate).Find(&stats)`. -/
def findSince (tbl : List VulnStatistic) (repoID startDate : Int) : List VulnStatistic :=
  tbl.filter (fun r => decide (r.RepoID = repoID ∧ startDate ≤ r.Date))

/-- Window start of `GetVulnScanStatisticsLast12Days`. -/
def startDate12Days (now : Int) : Int := Truncate24h (AddDays now (-12))

/-- The `daysAgo` of a row dated `date`. -/
def daysAgo (now date : Int) : Int := wholeDays (Sub now date)

/-- `GetVulnScanStatisticsLast12Days`. -/
def GetVulnScanStatisticsLast12Days (tbl : List VulnStatistic) (now repoID : Int) :
    Option (List (String × List Int)) :=
  let stats := findSince tbl repoID (startDate12Days now)
  bucketLoop (fun stat => daysAgo now stat.Date) stats emptyResult

/-- The expression `t.AddDate(0, 0, -int(t.Weekday())+1)`. -/
def mondayOfWeek (t : Int) : Int := AddDays t (-(Weekday t) + 1)

/-- Window start of `GetVulnScanStatisticsLast12Weeks`. -/
def startDate12Weeks (now : Int) : Int :=
  mondayOfWeek (Truncate24h (AddDays now (-7 * 12)))

/-- The `weeksAgo` of a row dated `date`. -/
def weeksAgo (now date : Int) : Int := wholeWeeks (Sub now (mondayOfWeek date))

/-- `GetVulnScanStatisticsLast12Weeks`. -/
def GetVulnScanStatisticsLast12Weeks (tbl : List VulnStatistic) (now repoID : Int) :
    Option (List (String × List Int)) :=
  let stats := findSince tbl repoID (startDate12Weeks now)
  bucketLoop (fun stat => weeksAgo now stat.Date) stats emptyResult

/-- Window start of `GetVulnScanStatisticsLast12Months`. -/
def startDate12Months (now : Int) : Int :=
  let startDate := Truncate24h (AddMonths now (-12))
  DateUTC (Year startDate) (Month startDate) 1 0

/-- The `monthsAgo` of a row dated `date`. -/
def monthsAgo (now date : Int) : Int :=
  let monthStart := DateUTC (Year date) (Month date) 1 0
  (Year now - Year monthStart) * 12 + (Month now - Month monthStart)

/-- `GetVulnScanStatisticsLast12Months`. -/
def GetVulnScanStatisticsLast12Months (tbl : List VulnStatistic) (now repoID : Int) :
    Option (List (String × List Int)) :=
  let stats := findSince tbl repoID (startDate12Months now)
  bucketLoop (fun stat => monthsAgo now stat.Date) stats emptyResult

/-! ## Detection store (`secret_detection.go`) -/

/-- A row of the `repo_secret_detection` table. -/
structure RepoSecretDetection where
  ID : Int
  RepoID : Int
  BranchName : String
  RuleID : String
  Target : String
  Category : String
  Severity : String
  Title : String
  CodeContent : String
  LastScanned : Int
deriving DecidableEq, Repr

/-- The `repo_secret_detection` table. -/
structure DetectionTable where
  rows : List RepoSecretDetection
  nextID : Int
deriving DecidableEq, Repr

/-- The search options: the embedded record, the `ListAll` flag of the
embedded `db.ListOptions`, and the title pattern `Q`. -/
structure RepoSecretDetectionSearchOptions extends RepoSecretDetection where
  ListAll : Bool
  Q : String
deriving DecidableEq, Repr

/-- SQL `text LIKE pattern` with no escape character: `%` matches any run of
characters, `_` matches any one character, every other character itself. -/
def sqlLike : List Char → List Char → Bool
  | [], text => text.isEmpty
  | p :: pattern, text =>
    if p = '%' then text.tails.any (fun rest => sqlLike pattern rest)
    else match text with
      | [] => false
      | c :: rest => (p = '_' || p = c) && sqlLike pattern rest

/-- `builder.Like{col, value}`: the value is used as the pattern as it stands
when it begins or ends with `%`, and is wrapped in `%...%` otherwise. -/
def builderLike (value text : String) : Bool :=
  if value.data.head? = some '%' ∨ value.data.getLast? = some '%' then
    sqlLike value.data text.data
  else sqlLike ("%" ++ value ++ "%").data text.data

/-- `RepoSecretDetectionSearchOptions.ToConds`, the condition as a predicate
on rows.  `sqlLower` is the database's `LOWER`. -/
def RepoSecretDetectionSearchOptions.ToConds (sqlLower : String → String)
    (opts : RepoSecretDetectionSearchOptions) : RepoSecretDetection → Bool :=
  let cond : RepoSecretDetection → Bool := fun _ => true
  let cond : RepoSecretDetection → Bool :=
    if opts.RepoID ≠ 0 then
      fun r => cond r && decide (r.RepoID = opts.RepoID)
    else cond
  let cond : RepoSecretDetection → Bool :=
    if opts.Target ≠ "" then
      fun r => cond r && decide (r.Target = opts.Target)
    else cond
  let cond : RepoSecretDetection → Bool :=
    if opts.Severity ≠ "" then
      fun r => cond r && decide (r.Severity = opts.Severity)
    else cond
  let cond : RepoSecretDetection → Bool :=
    if opts.BranchName ≠ "" then
      fun r => cond r && decide (r.BranchName = opts.BranchName)
    else cond
  let cond : RepoSecretDetection → Bool :=
    if opts.Q ≠ "" then
      fun r => cond r && builderLike opts.Q (sqlLower r.Title)
    else cond
  cond

/-- The zero value of the record type. -/
def emptyDetection : RepoSecretDetection :=
  { ID := 0, RepoID := 0, BranchName := "", RuleID := "", Target := "", Category := "",
    Severity := "", Title := "", CodeContent := "", LastScanned := 0 }

/-- `db.FindAndCount` with `ListAll` set: every row satisfying the
condition, no page limit. -/
def FindAndCount (sqlLower : String → String) (rows : List RepoSecretDetection)
    (opts : RepoSecretDetectionSearchOptions) : List RepoSecretDetection × Nat :=
  let found := rows.filter (opts.ToConds sqlLower)
  (found, found.length)

/-- `ListRepoSecretDetections` on a database that answers the query.
`toLower` is Go's `strings.ToLower`, `sqlLower` the database's `LOWER`;
the filter is `none` for a nil map and otherwise reads as `""` at a missing
key. -/
def ListRepoSecretDetections (toLower sqlLower : String → String)
    (rows : List RepoSecretDetection) (repoID : Int) (filter : Option (String → String)) :
    List RepoSecretDetection :=
  let opts : RepoSecretDetectionSearchOptions :=
    { toRepoSecretDetection :=
        { emptyDetection with RepoID := repoID, Target := "", Severity := "", BranchName := "" }
      ListAll := true
      Q := "" }
  let opts :=
    match filter with
    | none => opts
    | some filter =>
      let opts := if filter "q" ≠ "" then { opts with Q := "%" ++ toLower (filter "q") ++ "%" }
        else opts
      let opts := if filter "location" ≠ "" then { opts with Target := filter "location" }
        else opts
      let opts := if filter "severity" ≠ "" then { opts with Severity := filter "severity" }
        else opts
      let opts := if filter "branch_name" ≠ "" then
          { opts with BranchName := filter "branch_name" }
        else opts
      opts
  (FindAndCount sqlLower rows opts).1

/-- `GetExistRepoSecretDetection`: the row with the given natural key, if any. -/
def GetExistRepoSecretDetection (rows : List RepoSecretDetection) (repoID : Int)
    (category target codeContent branchName : String) : Option RepoSecretDetection :=
  rows.find? (fun r => decide (r.Category = category ∧ r.RepoID = repoID ∧ r.Target = target ∧
    r.BranchName = branchName ∧ r.CodeContent = codeContent))

/-- `CreateOrUpdateRepoSecretDetection` on a database that answers every
query: the table afterwards and the returned record. -/
def CreateOrUpdateRepoSecretDetection (tbl : DetectionTable) (repoID : Int)
    (ruleID target category serverity title branchName codeContent : String)
    (lastScanned : Int) : DetectionTable × RepoSecretDetection :=
  match GetExistRepoSecretDetection tbl.rows repoID category target codeContent branchName with
  | none =>
    let secretVuln : RepoSecretDetection :=
      { ID := tbl.nextID, RuleID := ruleID, RepoID := repoID, BranchName := branchName,
        Category := category, Target := target, Severity := serverity, Title := title,
        CodeContent := codeContent, LastScanned := lastScanned }
    ({ rows := tbl.rows ++ [secretVuln], nextID := tbl.nextID + 1 }, secretVuln)
  | some existingSecretVuln =>
    let existingSecretVuln := { existingSecretVuln with LastScanned := lastScanned }
    ({ tbl with rows := tbl.rows.map (fun r =>
        if r.ID = existingSecretVuln.ID then
          { r with LastScanned := existingSecretVuln.LastScanned }
        else r) },
      existingSecretVuln)

/-- The statement `if !slices.Contains(res[key], value) { res[key] = append(res[key], value) }`. -/
def appendIfNew (res : List (String × List String)) (key value : String) :
    List (String × List String) :=
  if value ∈ mapGet res key then res else mapSet res key (mapGet res key ++ [value])

/-- `GetListSecretDetectionFilter`, given the outcome of the query: `none`
when it failed, otherwise the fetched rows. -/
def GetListSecretDetectionFilter (fetched : Option (List RepoSecretDetection)) :
    List (String × List String) :=
  let res : List (String × List String) :=
    [("location", []), ("severity", []), ("branch_name", [])]
  match fetched with
  | none => res
  | some results =>
    results.foldl
      (fun res bean =>
        let res := appendIfNew res "location" bean.Target
        let res := appendIfNew res "severity" bean.Severity
        let res := appendIfNew res "branch_name" bean.BranchName
        res)
      res

/-- The natural key of a detection row. -/
def hasKey (repoID : Int) (category target branchName codeContent : String)
    (r : RepoSecretDetection) : Bool :=
  decide (r.RepoID = repoID ∧ r.Category = category ∧ r.Target = target ∧
    r.BranchName = branchName ∧ r.CodeContent = codeContent)

/-- The sequence `out` lists the distinct members of `values`, each once, in
the order of their first occurrence. -/
def FirstSeen (values out : List String) : Prop :=
  out.Nodup ∧ (∀ v, v ∈ out ↔ v ∈ values) ∧
    out.Pairwise (fun a b => values.indexOf a < values.indexOf b)

/-- One pass of `if !slices.Contains(acc, v) { acc = append(acc, v) }` over
a list of values. -/
def collect (acc values : List String) : List String :=
  values.foldl (fun acc v => if v ∈ acc then acc else acc ++ [v]) acc

/-- ASCII lower-casing, used for `strings.ToLower` and for `LOWER` in
evaluations on ASCII text. -/
def asciiLower (s : String) : String := String.mk (s.data.map Char.toLower)

/-- The filter map `{key: value}`. -/
def singleFilter (key value : String) : String → String :=
  fun k => if k = key then value else ""

/-- A detection row of repository `repoID` with the given severity and title. -/
def detectionRow (id repoID : Int) (severity title : String) : RepoSecretDetection :=
  { ID := id, RepoID := repoID, BranchName := "main", RuleID := "generic-api-key",
    Target := "config.yml", Category := "secret", Severity := severity, Title := title,
    CodeContent := "key: value", LastScanned := 100 }

/-- The record with the given key `id` and the given field values. -/
def recordOf (id repoID : Int)
    (ruleID target category severity title branchName codeContent : String)
    (lastScanned : Int) : RepoSecretDetection :=
  { ID := id, RepoID := repoID, BranchName := branchName, RuleID := ruleID, Target := target,
    Category := category, Severity := severity, Title := title, CodeContent := codeContent,
    LastScanned := lastScanned }

/-! ## Specification vocabulary for the aggregations -/

/-- A row is summed into element `i` of the sequence of `scanType`. -/
def inBucket (unitsAgo : VulnStatistic → Int) (scanType : String) (i : Nat)
    (r : VulnStatistic) : Bool :=
  decide (r.ScanType = scanType ∧ 0 ≤ unitsAgo r ∧ unitsAgo r < 12 ∧ 11 - unitsAgo r = (i : Int))

/-- Well-formed result map: the three keys, each with a 12-element sequence. -/
def ResultOK (m : List (String × List Int)) : Prop :=
  m.map Prod.fst = scanTypes ∧ ∀ t ∈ scanTypes, (mapGet m t).length = 12

/-- The sum of the quantities of the rows summed into element `i` of `scanType`. -/
def bucketSum (unitsAgo : VulnStatistic → Int) (stats : List VulnStatistic)
    (scanType : String) (i : Nat) : Int :=
  ((stats.filter (inBucket unitsAgo scanType i)).map (fun r => r.VulnQuantity)).sum

/-- The sum of `VulnQuantity` over the rows of `scanType` whose index
`idx` equals `i`. -/
def quantitySum (stats : List VulnStatistic) (scanType : String)
    (idx : VulnStatistic → Int) (i : Nat) : Int :=
  ((stats.filter (fun r => decide (r.ScanType = scanType ∧ idx r = (i : Int)))).map
    (fun r => r.VulnQuantity)).sum

/-- The shape of an aggregation result: the call returns a map with exactly
the three scan types as keys, each holding 12 integers, and element `i` of a
scan type is `reduce` applied to the sum of `VulnQuantity` over the fetched
rows `stats` of that type with index `idx` equal to `i`. -/
def SumsByIndex (reduce : Int → Int) (returned : Option (List (String × List Int)))
    (stats : List VulnStatistic) (idx : VulnStatistic → Int) : Prop :=
  ∃ res, returned = some res ∧ res.map Prod.fst = scanTypes ∧
    ∀ t ∈ scanTypes, (mapGet res t).length = 12 ∧
      ∀ i : Nat, i < 12 → bucket res t i = reduce (quantitySum stats t idx i)

/-- The statistic row with the given key `id` and the given field values. -/
def statOf (id repoID : Int) (scanType : String) (vulnQuantity date : Int) : VulnStatistic :=
  { ID := id, RepoID := repoID, ScanType := scanType, VulnQuantity := vulnQuantity,
    Date := date }

/-! ## Concrete instants and rows used in evaluations -/

/-- 2024-01-17 (a Wednesday) 12:00:00 UTC. -/
def noonJan17 : Int := DateUTC 2024 1 17 43200000000000

/-- 2024-01-17 00:00:00 UTC. -/
def midnightJan17 : Int := DateUTC 2024 1 17 0

/-- 2024-01-06 (a Saturday) 00:00:00 UTC. -/
def saturdayJan6 : Int := DateUTC 2024 1 6 0

/-- 2024-01-07 (a Sunday) 00:00:00 UTC. -/
def sundayJan7 : Int := DateUTC 2024 1 7 0

/-- 2024-01-08 (a Monday) 00:00:00 UTC. -/
def mondayJan8 : Int := DateUTC 2024 1 8 0

/-- Two rows of one repository, scan type and day, each holding `2^62`. -/
def twoLargeRows : List VulnStatistic :=
  [ { ID := 1, RepoID := 1, ScanType := "dependency_vuln",
      VulnQuantity := 4611686018427387904, Date := midnightJan17 },
    { ID := 2, RepoID := 1, ScanType := "dependency_vuln",
      VulnQuantity := 4611686018427387904, Date := midnightJan17 } ]

/-- One row of repository 1 with quantity 5. -/
def oneRow (scanType : String) (date : Int) : VulnStatistic :=
  { ID := 1, RepoID := 1, ScanType := scanType, VulnQuantity := 5, Date := date }

/-- Two rows of one repository and scan type dated 2024-01-06 and 2024-01-07
(the same calendar month), each holding `2^62`. -/
def twoLargeRowsOfJanuary : List VulnStatistic :=
  [ { ID := 1, RepoID := 1, ScanType := "dependency_vuln",
      VulnQuantity := 4611686018427387904, Date := saturdayJan6 },
    { ID := 2, RepoID := 1, ScanType := "dependency_vuln",
      VulnQuantity := 4611686018427387904, Date := sundayJan7 } ]


/-! ## Lemmas: integers and calendar -/

theorem wrapInt64_wrap_add (a b : Int) : wrapInt64 (wrapInt64 a + b) = wrapInt64 (a + b) := by
  unfold wrapInt64
  omega

theorem wrapInt64_idem (a : Int) : wrapInt64 (wrapInt64 a) = wrapInt64 a := by
  unfold wrapInt64
  omega

theorem wrapInt64_of_range (a : Int) (h0 : -9223372036854775808 ≤ a)
    (h1 : a < 9223372036854775808) : wrapInt64 a = a := by
  unfold wrapInt64
  omega

theorem yearOfEra_eq (yoe doy : Int) (h0 : 0 ≤ yoe) (h1 : yoe < 400) (h2 : 0 ≤ doy)
    (h3 : doy < 365) : yearOfEra (yoe * 365 + yoe / 4 - yoe / 100 + doy) = yoe := by
  unfold yearOfEra
  obtain ⟨c, hc⟩ : ∃ c, c = yoe / 100 := ⟨_, rfl⟩
  obtain ⟨q, hq⟩ : ∃ q, q = yoe / 4 := ⟨_, rfl⟩
  obtain ⟨doe, hd⟩ : ∃ doe, doe = yoe * 365 + yoe / 4 - yoe / 100 + doy := ⟨_, rfl⟩
  rw [← hd]
  have hf : doe / 36524 = c := by omega
  have hg : doe / 146096 = 0 := by omega
  have he : doe / 1460 = q ∨ (doe / 1460 = q + 1 ∧ 1 ≤ doy) := by omega
  rw [hf, hg]
  rcases he with he | ⟨he, h5⟩ <;> rw [he] <;> omega

theorem civilFromDays_eq (era yoe doy : Int) (h0 : 0 ≤ yoe) (h1 : yoe < 400)
    (h2 : 0 ≤ doy) (h3 : doy < 365) :
    civilFromDays (era * 146097 + (yoe * 365 + yoe / 4 - yoe / 100 + doy) - 719468) =
      (if (if (5 * doy + 2) / 153 < 10 then (5 * doy + 2) / 153 + 3 else (5 * doy + 2) / 153 - 9) ≤ 2
        then yoe + era * 400 + 1 else yoe + era * 400,
       if (5 * doy + 2) / 153 < 10 then (5 * doy + 2) / 153 + 3 else (5 * doy + 2) / 153 - 9,
       doy - (153 * ((5 * doy + 2) / 153) + 2) / 5 + 1) := by
  have hy := yearOfEra_eq yoe doy h0 h1 h2 h3
  obtain ⟨doe, hd⟩ : ∃ doe, doe = yoe * 365 + yoe / 4 - yoe / 100 + doy := ⟨_, rfl⟩
  rw [← hd] at hy ⊢
  have hera : (era * 146097 + doe - 719468 + 719468) / 146097 = era := by omega
  have hdoe : era * 146097 + doe - 719468 + 719468 - era * 146097 = doe := by omega
  have hdoy : doe - (365 * yoe + yoe / 4 - yoe / 100) = doy := by omega
  simp only [civilFromDays, hera, hdoe, hy, hdoy]

/-- The first day of a month converts back to that year and month. -/
theorem civilFromDays_daysFromCivil (y m : Int) (hm1 : 1 ≤ m) (hm2 : m ≤ 12) :
    civilFromDays (daysFromCivil y m) = (y, m, 1) := by
  unfold daysFromCivil
  obtain ⟨mp, hmp⟩ : ∃ mp, mp = (m + 9) % 12 := ⟨_, rfl⟩
  obtain ⟨y1, hy1⟩ : ∃ y1, y1 = if m ≤ 2 then y - 1 else y := ⟨_, rfl⟩
  obtain ⟨doy, hdoy⟩ : ∃ doy, doy = (153 * mp + 2) / 5 := ⟨_, rfl⟩
  simp only [← hmp, ← hy1, ← hdoy]
  have hmp0 : 0 ≤ mp ∧ mp < 12 := by omega
  have hb : 0 ≤ doy ∧ doy < 365 := by omega
  rw [civilFromDays_eq _ _ _ (by omega) (by omega) hb.1 hb.2]
  have hmp2 : (5 * doy + 2) / 153 = mp := by omega
  rw [hmp2]
  have hd : doy - (153 * mp + 2) / 5 + 1 = 1 := by omega
  rw [hd]
  by_cases hle : m ≤ 2
  · have e1 : mp = m + 9 := by omega
    have e2 : y1 = y - 1 := by rw [hy1, if_pos hle]
    have e3 : ¬ mp < 10 := by omega
    have e4 : mp - 9 ≤ 2 := by omega
    rw [if_neg e3, if_pos e4, e1, e2]
    simp only [Prod.mk.injEq, and_true]
    constructor <;> omega
  · have e1 : mp = m - 3 := by omega
    have e2 : y1 = y := by rw [hy1, if_neg hle]
    have e3 : mp < 10 := by omega
    have e4 : ¬ mp + 3 ≤ 2 := by omega
    rw [if_pos e3, if_neg e4, e1, e2]
    simp only [Prod.mk.injEq, and_true]
    constructor <;> omega

theorem dayNumber_DateUTC (y m : Int) :
    dayNumber (DateUTC y m 1 0) = daysFromCivil (y + (m - 1) / 12) ((m - 1) % 12 + 1) := by
  simp only [dayNumber, DateUTC, nsPerDay]
  omega

theorem Year_DateUTC (y m : Int) : Year (DateUTC y m 1 0) = y + (m - 1) / 12 := by
  rw [Year, dayNumber_DateUTC, civilFromDays_daysFromCivil _ _ (by omega) (by omega)]

theorem Month_DateUTC (y m : Int) : Month (DateUTC y m 1 0) = (m - 1) % 12 + 1 := by
  rw [Month, dayNumber_DateUTC, civilFromDays_daysFromCivil _ _ (by omega) (by omega)]

/-- The month bucket distance is the difference of the (year, month) pairs. -/
theorem monthsAgo_eq (now date : Int) :
    monthsAgo now date = (Year now - Year date) * 12 + (Month now - Month date) := by
  simp only [monthsAgo, Year_DateUTC, Month_DateUTC]
  omega

/-! ## Lemmas: the result map and the bucketing loop -/

theorem mapGet_mapSet {α : Type} (m : List (String × List α)) (k k2 : String) (v : List α) :
    mapGet (mapSet m k v) k2 = if k2 = k then v else mapGet m k2 := by
  induction m with
  | nil =>
    by_cases h : k2 = k
    · simp [mapSet, mapGet, h]
    · have h2 : ¬ k = k2 := fun e => h e.symm
      simp [mapSet, mapGet, h, h2]
  | cons p rest ih =>
    obtain ⟨k0, v0⟩ := p
    by_cases h0 : k0 = k
    · subst h0
      by_cases h : k0 = k2
      · simp [mapSet, mapGet, h]
      · have h2 : ¬ k2 = k0 := fun e => h e.symm
        simp [mapSet, mapGet, h, h2]
    · by_cases h : k0 = k2
      · subst h
        simp [mapSet, mapGet, h0]
      · simp [mapSet, mapGet, h0, h, ih]

theorem keys_mapSet {α : Type} (m : List (String × List α)) (k : String) (v : List α)
    (hk : k ∈ m.map Prod.fst) : (mapSet m k v).map Prod.fst = m.map Prod.fst := by
  induction m with
  | nil => simp at hk
  | cons p rest ih =>
    obtain ⟨k0, v0⟩ := p
    by_cases h0 : k0 = k
    · simp [mapSet, h0]
    · have : k ∈ rest.map Prod.fst := by
        simp only [List.map_cons, List.mem_cons] at hk
        rcases hk with hk | hk
        · exact absurd hk.symm h0
        · exact hk
      simp [mapSet, h0, ih this]

theorem getD_set (l : List Int) (i j : Nat) (v : Int) (hi : i < l.length) :
    (l.set i v).getD j 0 = if j = i then v else l.getD j 0 := by
  simp only [List.getD_eq_getElem?_getD, List.getElem?_set]
  by_cases h : i = j
  · subst h
    simp [hi]
  · have h2 : ¬ j = i := fun e => h e.symm
    simp [h, h2]

theorem emptyResult_ok : ResultOK emptyResult := by
  constructor
  · rfl
  · intro t ht
    simp only [scanTypes, List.mem_cons, List.mem_singleton, List.not_mem_nil, or_false] at ht
    rcases ht with h | h | h <;> subst h <;> rfl

theorem getD_replicate_zero (n i : Nat) : (List.replicate n (0 : Int)).getD i 0 = 0 := by
  simp only [List.getD_eq_getElem?_getD, List.getElem?_replicate]
  split <;> rfl

theorem bucket_emptyResult (t : String) (i : Nat) : bucket emptyResult t i = 0 := by
  simp only [bucket, mapGet, emptyResult, scanTypes, List.map]
  split_ifs <;> first | exact getD_replicate_zero 12 i | rfl

theorem addToBucket_spec (m : List (String × List Int)) (stat : VulnStatistic) (u : Int)
    (hk : stat.ScanType ∈ scanTypes) (hm : ResultOK m) :
    ∃ m2, addToBucket m stat u = some m2 ∧ ResultOK m2 ∧
      ∀ t i, bucket m2 t i =
        if stat.ScanType = t ∧ 0 ≤ u ∧ u < 12 ∧ 11 - u = (i : Int)
        then wrapInt64 (bucket m t i + stat.VulnQuantity) else bucket m t i := by
  unfold addToBucket
  by_cases hg : 0 ≤ u ∧ u < 12
  · have hlen := hm.2 _ hk
    have hi : (11 - u).toNat < (mapGet m stat.ScanType).length := by
      rw [hlen]; omega
    rw [if_pos hg]
    simp only [hi, if_true]
    refine ⟨_, rfl, ⟨?_, ?_⟩, ?_⟩
    · rw [keys_mapSet _ _ _ (by rw [hm.1]; exact hk)]
      exact hm.1
    · intro t ht
      rw [mapGet_mapSet]
      split
      · rw [List.length_set]; exact hlen
      · exact hm.2 t ht
    · intro t i
      simp only [bucket, mapGet_mapSet]
      by_cases ht : t = stat.ScanType
      · subst ht
        rw [if_pos rfl, getD_set _ _ _ _ hi]
        by_cases hidx : 11 - u = (i : Int)
        · have hi2 : i = (11 - u).toNat := by omega
          rw [if_pos hi2, if_pos ⟨rfl, hg.1, hg.2, hidx⟩, ← hi2]
        · have hi2 : ¬ i = (11 - u).toNat := by omega
          rw [if_neg hi2, if_neg (fun h => hidx h.2.2.2)]
      · have ht2 : ¬ stat.ScanType = t := fun e => ht e.symm
        rw [if_neg ht, if_neg (fun h => ht2 h.1)]
  · refine ⟨m, by simp [hg], hm, ?_⟩
    intro t i
    have : ¬ (stat.ScanType = t ∧ 0 ≤ u ∧ u < 12 ∧ 11 - u = (i : Int)) := by
      intro h; exact hg ⟨h.2.1, h.2.2.1⟩
    simp [this]

theorem bucketLoop_spec (unitsAgo : VulnStatistic → Int) (stats : List VulnStatistic) :
    ∀ (m : List (String × List Int)), ResultOK m →
      (∀ r ∈ stats, r.ScanType ∈ scanTypes) →
      ∃ m2, bucketLoop unitsAgo stats m = some m2 ∧ ResultOK m2 ∧
        ∀ t i, wrapInt64 (bucket m t i) = bucket m t i →
          bucket m2 t i = wrapInt64 (bucket m t i + bucketSum unitsAgo stats t i) := by
  induction stats with
  | nil =>
    intro m hm _
    refine ⟨m, rfl, hm, ?_⟩
    intro t i hfix
    simp [bucketSum, hfix]
  | cons stat rest ih =>
    intro m hm hty
    obtain ⟨m1, h1, hm1, hb1⟩ :=
      addToBucket_spec m stat (unitsAgo stat) (hty stat (List.mem_cons_self _ _)) hm
    obtain ⟨m2, h2, hm2, hb2⟩ := ih m1 hm1 (fun r hr => hty r (List.mem_cons_of_mem _ hr))
    refine ⟨m2, ?_, hm2, ?_⟩
    · simp only [bucketLoop, h1, h2]
    · intro t i hfix
      have hb := hb1 t i
      by_cases hin : stat.ScanType = t ∧ 0 ≤ unitsAgo stat ∧ unitsAgo stat < 12 ∧
          11 - unitsAgo stat = (i : Int)
      · rw [if_pos hin] at hb
        rw [hb2 t i (by rw [hb, wrapInt64_idem]), hb, wrapInt64_wrap_add]
        have : inBucket unitsAgo t i stat = true := by simp [inBucket, hin]
        simp only [bucketSum, List.filter_cons, this, if_true, List.map_cons, List.sum_cons]
        rw [add_assoc]
      · rw [if_neg hin] at hb
        rw [hb2 t i (by rw [hb, hfix]), hb]
        have : inBucket unitsAgo t i stat = false := by simp [inBucket, hin]
        simp [bucketSum, List.filter_cons, this]

/-! ## The aggregations -/

theorem bucketLoop_sums (unitsAgo idx : VulnStatistic → Int) (stats : List VulnStatistic)
    (hty : ∀ r ∈ stats, r.ScanType ∈ scanTypes)
    (hidx : ∀ r ∈ stats, ∀ i : Nat, i < 12 →
      ((0 ≤ unitsAgo r ∧ unitsAgo r < 12 ∧ 11 - unitsAgo r = (i : Int)) ↔ idx r = (i : Int))) :
    SumsByIndex wrapInt64 (bucketLoop unitsAgo stats emptyResult) stats idx := by
  obtain ⟨m2, h1, hok, hb⟩ := bucketLoop_spec unitsAgo stats emptyResult emptyResult_ok hty
  refine ⟨m2, h1, hok.1, fun t ht => ⟨hok.2 t ht, fun i hi => ?_⟩⟩
  rw [hb t i (by rw [bucket_emptyResult]; rfl), bucket_emptyResult, zero_add]
  congr 1
  unfold bucketSum quantitySum
  congr 2
  apply List.filter_congr
  intro r hr
  simp only [inBucket, decide_eq_decide]
  have := hidx r hr i hi
  constructor
  · intro h; exact ⟨h.1, this.1 h.2⟩
  · intro h; exact ⟨h.1, this.2 h.2⟩

theorem Truncate24h_le (now : Int) :
    Truncate24h now ≤ now ∧ now < Truncate24h now + nsPerDay := by
  simp only [Truncate24h, nsPerDay]
  omega

theorem daysAgo_eq (now date : Int) (h1 : startDate12Days now ≤ date) (h2 : date ≤ now) :
    daysAgo now date = (now - date) / nsPerDay := by
  have hT := Truncate24h_le now
  have hS : Truncate24h now - 12 * nsPerDay ≤ date := by
    simp only [startDate12Days, Truncate24h, AddDays, nsPerDay] at h1 ⊢
    omega
  simp only [nsPerDay] at hT hS
  have hsub : Sub now date = now - date := by
    simp only [Sub, minDuration, maxDuration]
    rw [if_pos (by omega)]
  rw [daysAgo, hsub, wholeDays]
  exact Int.tdiv_eq_ediv (by omega) (by simp [nsPerDay])

/-- C3 (as amended): with every fetched row of one of the three scan types and
dated no later than today, `GetVulnScanStatisticsLast12Days` returns the three
keys with 12 integers each, element `i` being the `int64` (wrapped) sum of
`VulnQuantity` over the fetched rows of that type with
`11 - floor((now - Date) / 24h) = i`; rows 0, 11 and 12 days before `now`
have `daysAgo` 0, 11 and 12, the last failing the guard; and with no fetched
row every sequence is 12 zeros. -/
theorem last12Days_bucket_sums (tbl : List VulnStatistic) (now repoID : Int)
    (h : ∀ r ∈ findSince tbl repoID (startDate12Days now),
      r.ScanType ∈ scanTypes ∧ r.Date ≤ Truncate24h now) :
    SumsByIndex wrapInt64 (GetVulnScanStatisticsLast12Days tbl now repoID)
        (findSince tbl repoID (startDate12Days now))
        (fun r => 11 - (now - r.Date) / nsPerDay) ∧
      daysAgo now now = 0 ∧ daysAgo now (AddDays now (-11)) = 11 ∧
      daysAgo now (AddDays now (-12)) = 12 ∧
      (findSince tbl repoID (startDate12Days now) = [] →
        GetVulnScanStatisticsLast12Days tbl now repoID = some emptyResult) := by
  refine ⟨?_, ?_, ?_, ?_, ?_⟩
  · apply bucketLoop_sums _ _ _ (fun r hr => (h r hr).1)
    intro r hr i hi
    have hd : startDate12Days now ≤ r.Date := by
      have := (List.mem_filter.1 hr).2
      simp only [decide_eq_true_eq] at this
      exact this.2
    have hle : r.Date ≤ now := le_trans (h r hr).2 (Truncate24h_le now).1
    have hnn : 0 ≤ (now - r.Date) / nsPerDay :=
      Int.ediv_nonneg (by omega) (by simp [nsPerDay])
    simp only [daysAgo_eq now r.Date hd hle]
    omega
  · simp [daysAgo, Sub, wholeDays, minDuration, maxDuration, nsPerDay]
  · simp [daysAgo, Sub, wholeDays, AddDays, minDuration, maxDuration, nsPerDay]
    decide
  · simp [daysAgo, Sub, wholeDays, AddDays, minDuration, maxDuration, nsPerDay]
    decide
  · intro he
    simp only [GetVulnScanStatisticsLast12Days, he, bucketLoop]

/-- An instance at 2024-01-17 12:00 UTC with one stored row dated that day. -/
theorem last12Days_bucket_sums_witness :
    (∀ r ∈ findSince [oneRow "iac_misconfig" midnightJan17] 1 (startDate12Days noonJan17),
      r.ScanType ∈ scanTypes ∧ r.Date ≤ Truncate24h noonJan17) ∧
    (SumsByIndex wrapInt64
        (GetVulnScanStatisticsLast12Days [oneRow "iac_misconfig" midnightJan17] noonJan17 1)
        (findSince [oneRow "iac_misconfig" midnightJan17] 1 (startDate12Days noonJan17))
        (fun r => 11 - (noonJan17 - r.Date) / nsPerDay) ∧
      daysAgo noonJan17 noonJan17 = 0 ∧ daysAgo noonJan17 (AddDays noonJan17 (-11)) = 11 ∧
      daysAgo noonJan17 (AddDays noonJan17 (-12)) = 12 ∧
      (findSince [oneRow "iac_misconfig" midnightJan17] 1 (startDate12Days noonJan17) = [] →
        GetVulnScanStatisticsLast12Days [oneRow "iac_misconfig" midnightJan17] noonJan17 1 =
          some emptyResult)) :=
  ⟨by decide, last12Days_bucket_sums [oneRow "iac_misconfig" midnightJan17] noonJan17 1 (by decide)⟩

/-- C3 (counterexample): two stored rows of one scan type dated today, each
holding `2^62` (an `int64` value), are inside the window, and element 11 is
not their sum `2^63`: the `int64` addition wraps to `-2^63`. -/
theorem last12Days_sum_not_exact :
    (∀ r ∈ findSince twoLargeRows 1 (startDate12Days noonJan17),
      r.ScanType ∈ scanTypes ∧ r.Date ≤ Truncate24h noonJan17 ∧
      wrapInt64 r.VulnQuantity = r.VulnQuantity) ∧
    GetVulnScanStatisticsLast12Days twoLargeRows noonJan17 1 =
      some [("dependency_vuln", [0, 0, 0, 0, 0, 0, 0, 0, 0, 0, 0, -9223372036854775808]),
            ("iac_misconfig", [0, 0, 0, 0, 0, 0, 0, 0, 0, 0, 0, 0]),
            ("secret_detection", [0, 0, 0, 0, 0, 0, 0, 0, 0, 0, 0, 0])] ∧
    quantitySum (findSince twoLargeRows 1 (startDate12Days noonJan17)) "dependency_vuln"
      (fun r => 11 - (noonJan17 - r.Date) / nsPerDay) 11 = 9223372036854775808 ∧
    ¬ SumsByIndex (fun x => x) (GetVulnScanStatisticsLast12Days twoLargeRows noonJan17 1)
        (findSince twoLargeRows 1 (startDate12Days noonJan17))
        (fun r => 11 - (noonJan17 - r.Date) / nsPerDay) := by
  refine ⟨by decide, by decide, by decide, ?_⟩
  rintro ⟨res, h1, -, h3⟩
  have e : GetVulnScanStatisticsLast12Days twoLargeRows noonJan17 1 =
      some [("dependency_vuln", [0, 0, 0, 0, 0, 0, 0, 0, 0, 0, 0, -9223372036854775808]),
            ("iac_misconfig", [0, 0, 0, 0, 0, 0, 0, 0, 0, 0, 0, 0]),
            ("secret_detection", [0, 0, 0, 0, 0, 0, 0, 0, 0, 0, 0, 0])] := by decide
  rw [e] at h1
  cases h1
  have h := (h3 "dependency_vuln" (by decide)).2 11 (by decide)
  revert h
  decide

theorem mapGet_of_not_mem (m : List (String × List Int)) (k : String)
    (hk : k ∉ m.map Prod.fst) : mapGet m k = [] := by
  induction m with
  | nil => rfl
  | cons p rest ih =>
    obtain ⟨k0, v0⟩ := p
    simp only [List.map_cons, List.mem_cons, not_or] at hk
    have h0 : ¬ k0 = k := fun e => hk.1 e.symm
    simp only [mapGet, if_neg h0]
    exact ih hk.2

theorem addToBucket_some (m m2 : List (String × List Int)) (stat : VulnStatistic) (u : Int)
    (hm : ResultOK m) (h : addToBucket m stat u = some m2) :
    ResultOK m2 ∧
      ∀ t i, bucket m2 t i =
        if stat.ScanType = t ∧ 0 ≤ u ∧ u < 12 ∧ 11 - u = (i : Int)
        then wrapInt64 (bucket m t i + stat.VulnQuantity) else bucket m t i := by
  by_cases hg : 0 ≤ u ∧ u < 12
  · have hk : stat.ScanType ∈ scanTypes := by
      by_contra hk
      have hnil := mapGet_of_not_mem m stat.ScanType (by rw [hm.1]; exact hk)
      simp [addToBucket, hg, hnil] at h
    obtain ⟨m3, h3, hok, hb⟩ := addToBucket_spec m stat u hk hm
    rw [h] at h3
    cases h3
    exact ⟨hok, hb⟩
  · have e : m2 = m := by
      simp only [addToBucket, if_neg hg, Option.some.injEq] at h
      exact h.symm
    subst e
    refine ⟨hm, fun t i => ?_⟩
    rw [if_neg (fun h => hg ⟨h.2.1, h.2.2.1⟩)]

theorem bucketLoop_some (unitsAgo : VulnStatistic → Int) (stats : List VulnStatistic) :
    ∀ (m m2 : List (String × List Int)), ResultOK m →
      bucketLoop unitsAgo stats m = some m2 → ResultOK m2 := by
  induction stats with
  | nil =>
    intro m m2 hm h
    simp only [bucketLoop, Option.some.injEq] at h
    exact h ▸ hm
  | cons stat rest ih =>
    intro m m2 hm h
    simp only [bucketLoop] at h
    cases h1 : addToBucket m stat (unitsAgo stat) with
    | none => simp [h1] at h
    | some m1 =>
      simp only [h1] at h
      exact ih m1 m2 (addToBucket_some m m1 stat _ hm h1).1 h

theorem bucketLoop_append (unitsAgo : VulnStatistic → Int) (stats : List VulnStatistic)
    (row : VulnStatistic) :
    ∀ m, bucketLoop unitsAgo (stats ++ [row]) m =
      (bucketLoop unitsAgo stats m).bind (fun m1 => addToBucket m1 row (unitsAgo row)) := by
  induction stats with
  | nil =>
    intro m
    simp only [List.nil_append, bucketLoop, Option.some_bind]
    cases addToBucket m row (unitsAgo row) <;> rfl
  | cons stat rest ih =>
    intro m
    simp only [List.cons_append, bucketLoop]
    cases addToBucket m stat (unitsAgo stat) with
    | none => rfl
    | some m1 => exact ih m1

theorem findSince_append (tbl : List VulnStatistic) (row : VulnStatistic) (repoID start : Int)
    (h1 : row.RepoID = repoID) (h2 : start ≤ row.Date) :
    findSince (tbl ++ [row]) repoID start = findSince tbl repoID start ++ [row] := by
  simp [findSince, List.filter_append, List.filter_cons, h1, h2]

/-- Adding one row of the repository, inside the window, to the table: the
returned map is that of the table with the row's quantity added into the
element given by its `daysAgo`, if that passes the guard. -/
theorem last12Days_add_row (tbl : List VulnStatistic) (now repoID : Int) (row : VulnStatistic)
    (res : List (String × List Int))
    (hres : GetVulnScanStatisticsLast12Days tbl now repoID = some res)
    (hrepo : row.RepoID = repoID) (hty : row.ScanType ∈ scanTypes)
    (hdate : startDate12Days now ≤ row.Date) :
    ∃ res2, GetVulnScanStatisticsLast12Days (tbl ++ [row]) now repoID = some res2 ∧
      ∀ t i, bucket res2 t i =
        if row.ScanType = t ∧ 0 ≤ daysAgo now row.Date ∧ daysAgo now row.Date < 12 ∧
            11 - daysAgo now row.Date = (i : Int)
        then wrapInt64 (bucket res t i + row.VulnQuantity) else bucket res t i := by
  simp only [GetVulnScanStatisticsLast12Days] at hres ⊢
  rw [findSince_append _ _ _ _ hrepo hdate, bucketLoop_append, hres, Option.some_bind]
  have hok := bucketLoop_some _ _ _ _ emptyResult_ok hres
  obtain ⟨m2, h2, -, hb⟩ := addToBucket_spec res row (daysAgo now row.Date) hty hok
  exact ⟨m2, h2, hb⟩

/-- C9 (as amended): index 11 is today and index 0 is 11 days ago.  Adding to
the table a row of the repository dated today adds its quantity (in `int64`
arithmetic) into element 11 of its scan type and changes nothing else; a row
dated 11 days before today goes into element 0; a row dated 12 days before
today changes no element. -/
theorem last12Days_index_of_day (tbl : List VulnStatistic) (now repoID : Int)
    (row : VulnStatistic) (res : List (String × List Int))
    (hres : GetVulnScanStatisticsLast12Days tbl now repoID = some res)
    (hrepo : row.RepoID = repoID) (hty : row.ScanType ∈ scanTypes) :
    (row.Date = Truncate24h now →
      ∃ res2, GetVulnScanStatisticsLast12Days (tbl ++ [row]) now repoID = some res2 ∧
        ∀ t i, bucket res2 t i =
          if row.ScanType = t ∧ i = 11 then wrapInt64 (bucket res t i + row.VulnQuantity)
          else bucket res t i) ∧
    (row.Date = AddDays (Truncate24h now) (-11) →
      ∃ res2, GetVulnScanStatisticsLast12Days (tbl ++ [row]) now repoID = some res2 ∧
        ∀ t i, bucket res2 t i =
          if row.ScanType = t ∧ i = 0 then wrapInt64 (bucket res t i + row.VulnQuantity)
          else bucket res t i) ∧
    (row.Date = AddDays (Truncate24h now) (-12) →
      ∃ res2, GetVulnScanStatisticsLast12Days (tbl ++ [row]) now repoID = some res2 ∧
        ∀ t i, bucket res2 t i = bucket res t i) := by
  have hT := Truncate24h_le now
  have hstart : startDate12Days now = Truncate24h now - 12 * nsPerDay := by
    simp only [startDate12Days, Truncate24h, AddDays, nsPerDay]
    omega
  simp only [nsPerDay] at hT hstart
  refine ⟨fun hd => ?_, fun hd => ?_, fun hd => ?_⟩
  · have hd1 : startDate12Days now ≤ row.Date := by omega
    obtain ⟨res2, h2, hb⟩ := last12Days_add_row tbl now repoID row res hres hrepo hty hd1
    refine ⟨res2, h2, fun t i => ?_⟩
    have hu : daysAgo now row.Date = 0 := by
      rw [daysAgo_eq now row.Date hd1 (by omega)]
      simp only [nsPerDay]
      omega
    rw [hb t i, hu]
    by_cases hti : row.ScanType = t ∧ i = 11
    · rw [if_pos hti, if_pos ⟨hti.1, by omega, by omega, by omega⟩]
    · rw [if_neg hti, if_neg (fun h => hti ⟨h.1, by omega⟩)]
  · simp only [AddDays, nsPerDay] at hd
    have hd1 : startDate12Days now ≤ row.Date := by omega
    obtain ⟨res2, h2, hb⟩ := last12Days_add_row tbl now repoID row res hres hrepo hty hd1
    refine ⟨res2, h2, fun t i => ?_⟩
    have hu : daysAgo now row.Date = 11 := by
      rw [daysAgo_eq now row.Date hd1 (by omega)]
      simp only [nsPerDay]
      omega
    rw [hb t i, hu]
    by_cases hti : row.ScanType = t ∧ i = 0
    · rw [if_pos hti, if_pos ⟨hti.1, by omega, by omega, by omega⟩]
    · rw [if_neg hti, if_neg (fun h => hti ⟨h.1, by omega⟩)]
  · simp only [AddDays, nsPerDay] at hd
    have hd1 : startDate12Days now ≤ row.Date := by omega
    obtain ⟨res2, h2, hb⟩ := last12Days_add_row tbl now repoID row res hres hrepo hty hd1
    refine ⟨res2, h2, fun t i => ?_⟩
    have hu : daysAgo now row.Date = 12 := by
      rw [daysAgo_eq now row.Date hd1 (by omega)]
      simp only [nsPerDay]
      omega
    rw [hb t i, hu, if_neg (fun h => by omega)]

/-- An instance at 2024-01-17 12:00 UTC: a row dated that day added to the empty table. -/
theorem last12Days_index_of_day_witness :
    GetVulnScanStatisticsLast12Days [] noonJan17 1 = some emptyResult ∧
    (oneRow "iac_misconfig" midnightJan17).RepoID = 1 ∧
    (oneRow "iac_misconfig" midnightJan17).ScanType ∈ scanTypes ∧
    (oneRow "iac_misconfig" midnightJan17).Date = Truncate24h noonJan17 ∧
    ∃ res2, GetVulnScanStatisticsLast12Days ([] ++ [oneRow "iac_misconfig" midnightJan17])
        noonJan17 1 = some res2 ∧
      ∀ t i, bucket res2 t i =
        if (oneRow "iac_misconfig" midnightJan17).ScanType = t ∧ i = 11
        then wrapInt64 (bucket emptyResult t i + (oneRow "iac_misconfig" midnightJan17).VulnQuantity)
        else bucket emptyResult t i :=
  ⟨by decide, by decide, by decide, by decide,
    (last12Days_index_of_day [] noonJan17 1 (oneRow "iac_misconfig" midnightJan17) emptyResult
      (by decide) (by decide) (by decide)).1 (by decide)⟩

/-- C9 (counterexample): at 2024-01-17 12:00 UTC a stored row dated 12 days
before today (2024-01-05) with quantity 5 is fetched, has `daysAgo` 12, and is
counted in no element: element 0 of its scan type is 0, not 5. -/
theorem last12Days_twelve_days_ago_not_counted :
    AddDays (Truncate24h noonJan17) (-12) = DateUTC 2024 1 5 0 ∧
    findSince [oneRow "dependency_vuln" (AddDays (Truncate24h noonJan17) (-12))] 1
        (startDate12Days noonJan17) =
      [oneRow "dependency_vuln" (AddDays (Truncate24h noonJan17) (-12))] ∧
    daysAgo noonJan17 (AddDays (Truncate24h noonJan17) (-12)) = 12 ∧
    GetVulnScanStatisticsLast12Days
        [oneRow "dependency_vuln" (AddDays (Truncate24h noonJan17) (-12))] noonJan17 1 =
      some [("dependency_vuln", [0, 0, 0, 0, 0, 0, 0, 0, 0, 0, 0, 0]),
            ("iac_misconfig", [0, 0, 0, 0, 0, 0, 0, 0, 0, 0, 0, 0]),
            ("secret_detection", [0, 0, 0, 0, 0, 0, 0, 0, 0, 0, 0, 0])] := by
  decide

/-- C5 (as amended): with every fetched row of one of the three scan types,
`GetVulnScanStatisticsLast12Months` returns the three keys with 12 integers
each, element `i` being the `int64` (wrapped) sum of `VulnQuantity` over the
fetched rows of that type with `11 - monthsAgo = i`, where
`monthsAgo = (year(now) - year(Date)) * 12 + (month(now) - month(Date))`;
a row dated on the 1st of the current month has `monthsAgo = 0` (element 11)
and one dated on the 1st of the month 13 months back has `monthsAgo = 13`,
which fails the guard. -/
theorem last12Months_bucket_sums (tbl : List VulnStatistic) (now repoID : Int)
    (h : ∀ r ∈ findSince tbl repoID (startDate12Months now), r.ScanType ∈ scanTypes) :
    SumsByIndex wrapInt64 (GetVulnScanStatisticsLast12Months tbl now repoID)
        (findSince tbl repoID (startDate12Months now))
        (fun r => 11 - ((Year now - Year r.Date) * 12 + (Month now - Month r.Date))) ∧
      monthsAgo now (DateUTC (Year now) (Month now) 1 0) = 0 ∧
      monthsAgo now (DateUTC (Year now) (Month now - 13) 1 0) = 13 := by
  refine ⟨?_, ?_, ?_⟩
  · apply bucketLoop_sums _ _ _ h
    intro r _ i hi
    simp only [monthsAgo_eq]
    omega
  · simp only [monthsAgo_eq, Year_DateUTC, Month_DateUTC]
    omega
  · simp only [monthsAgo_eq, Year_DateUTC, Month_DateUTC]
    omega

/-- An instance at 2024-01-17 12:00 UTC with one stored row dated 2024-01-07. -/
theorem last12Months_bucket_sums_witness :
    (∀ r ∈ findSince [oneRow "iac_misconfig" sundayJan7] 1 (startDate12Months noonJan17),
      r.ScanType ∈ scanTypes) ∧
    (SumsByIndex wrapInt64
        (GetVulnScanStatisticsLast12Months [oneRow "iac_misconfig" sundayJan7] noonJan17 1)
        (findSince [oneRow "iac_misconfig" sundayJan7] 1 (startDate12Months noonJan17))
        (fun r => 11 - ((Year noonJan17 - Year r.Date) * 12 + (Month noonJan17 - Month r.Date))) ∧
      monthsAgo noonJan17 (DateUTC (Year noonJan17) (Month noonJan17) 1 0) = 0 ∧
      monthsAgo noonJan17 (DateUTC (Year noonJan17) (Month noonJan17 - 13) 1 0) = 13) :=
  ⟨by decide, last12Months_bucket_sums [oneRow "iac_misconfig" sundayJan7] noonJan17 1 (by decide)⟩

/-- C5 (counterexample): two stored rows of one scan type dated 2024-01-06 and
2024-01-07, each holding `2^62` (an `int64` value), are fetched at 2024-01-17,
and element 11 is not their sum `2^63`: the `int64` addition wraps to `-2^63`. -/
theorem last12Months_sum_not_exact :
    (∀ r ∈ findSince twoLargeRowsOfJanuary 1 (startDate12Months noonJan17),
      r.ScanType ∈ scanTypes ∧ wrapInt64 r.VulnQuantity = r.VulnQuantity) ∧
    GetVulnScanStatisticsLast12Months twoLargeRowsOfJanuary noonJan17 1 =
      some [("dependency_vuln", [0, 0, 0, 0, 0, 0, 0, 0, 0, 0, 0, -9223372036854775808]),
            ("iac_misconfig", [0, 0, 0, 0, 0, 0, 0, 0, 0, 0, 0, 0]),
            ("secret_detection", [0, 0, 0, 0, 0, 0, 0, 0, 0, 0, 0, 0])] ∧
    quantitySum (findSince twoLargeRowsOfJanuary 1 (startDate12Months noonJan17))
      "dependency_vuln"
      (fun r => 11 - ((Year noonJan17 - Year r.Date) * 12 + (Month noonJan17 - Month r.Date)))
      11 = 9223372036854775808 ∧
    ¬ SumsByIndex (fun x => x) (GetVulnScanStatisticsLast12Months twoLargeRowsOfJanuary noonJan17 1)
        (findSince twoLargeRowsOfJanuary 1 (startDate12Months noonJan17))
        (fun r => 11 - ((Year noonJan17 - Year r.Date) * 12 + (Month noonJan17 - Month r.Date))) := by
  refine ⟨by decide, by decide, by decide, ?_⟩
  rintro ⟨res, h1, -, h3⟩
  have e : GetVulnScanStatisticsLast12Months twoLargeRowsOfJanuary noonJan17 1 =
      some [("dependency_vuln", [0, 0, 0, 0, 0, 0, 0, 0, 0, 0, 0, -9223372036854775808]),
            ("iac_misconfig", [0, 0, 0, 0, 0, 0, 0, 0, 0, 0, 0, 0]),
            ("secret_detection", [0, 0, 0, 0, 0, 0, 0, 0, 0, 0, 0, 0])] := by decide
  rw [e] at h1
  cases h1
  have h := (h3 "dependency_vuln" (by decide)).2 11 (by decide)
  revert h
  decide

/-! ## Evaluations at failing inputs -/

/-- C10: a row whose scan type is not one of the three fixed ones, as
`UpdateVulnScanStatistic` stores it, makes each of the three aggregations
panic (`none`): `result[stat.ScanType]` is the nil slice and element 11 of it
is out of range. -/
theorem aggregations_panic_on_other_scan_type :
    (UpdateVulnScanStatistic { rows := [], nextID := 1 } noonJan17 1 "sast" 5).rows =
      [oneRow "sast" midnightJan17] ∧
    GetVulnScanStatisticsLast12Days [oneRow "sast" midnightJan17] noonJan17 1 = none ∧
    GetVulnScanStatisticsLast12Weeks [oneRow "sast" midnightJan17] noonJan17 1 = none ∧
    GetVulnScanStatisticsLast12Months [oneRow "sast" midnightJan17] noonJan17 1 = none := by
  decide

/-- C4: for a row dated Sunday 2024-01-07, `Weekday()` is 0 and the computed
`mondayOfWeek` is the following day, Monday 2024-01-08, not the Monday
2024-01-01 that starts its week; the window start snapped from that Sunday is
2024-01-08 as well; and at 2024-01-17 12:00 the Saturday and the Sunday of the
week of Monday 2024-01-01 are summed into different elements (9 and 10). -/
theorem mondayOfWeek_of_sunday_is_next_day :
    Weekday sundayJan7 = 0 ∧
    mondayOfWeek sundayJan7 = mondayJan8 ∧
    sundayJan7 - mondayOfWeek sundayJan7 = -nsPerDay ∧
    mondayOfWeek saturdayJan6 = DateUTC 2024 1 1 0 ∧
    Truncate24h (AddDays (DateUTC 2024 3 31 43200000000000) (-7 * 12)) = sundayJan7 ∧
    startDate12Weeks (DateUTC 2024 3 31 43200000000000) = mondayJan8 ∧
    GetVulnScanStatisticsLast12Weeks
        [oneRow "dependency_vuln" saturdayJan6, oneRow "dependency_vuln" sundayJan7] noonJan17 1 =
      some [("dependency_vuln", [0, 0, 0, 0, 0, 0, 0, 0, 0, 5, 5, 0]),
            ("iac_misconfig", [0, 0, 0, 0, 0, 0, 0, 0, 0, 0, 0, 0]),
            ("secret_detection", [0, 0, 0, 0, 0, 0, 0, 0, 0, 0, 0, 0])] := by
  decide

/-- C2: starting from the empty table, storing quantity 5 and then quantity 0
for the same repository and scan type on the same UTC day (12:00 and 18:00 of
2024-01-17) leaves one row whose `VulnQuantity` is still 5: the update skips
the zero-valued column. -/
theorem UpdateVulnScanStatistic_zero_not_stored :
    Truncate24h (DateUTC 2024 1 17 64800000000000) = Truncate24h noonJan17 ∧
    (UpdateVulnScanStatistic
        (UpdateVulnScanStatistic { rows := [], nextID := 1 } noonJan17 1 "secret_detection" 5)
        (DateUTC 2024 1 17 64800000000000) 1 "secret_detection" 0).rows =
      [{ ID := 1, RepoID := 1, ScanType := "secret_detection", VulnQuantity := 5,
         Date := midnightJan17 }] := by
  decide

/-! ## Detection store -/

theorem collect_firstSeen (full : List String) :
    ∀ (todo done acc : List String), full = done ++ todo →
      acc.Nodup → (∀ v, v ∈ acc ↔ v ∈ done) →
      acc.Pairwise (fun a b => full.indexOf a < full.indexOf b) →
      FirstSeen full (collect acc todo) := by
  intro todo
  induction todo with
  | nil =>
    intro done acc hfull hnd hmem hpw
    rw [List.append_nil] at hfull
    subst hfull
    exact ⟨hnd, hmem, hpw⟩
  | cons x rest ih =>
    intro done acc hfull hnd hmem hpw
    have hfull2 : full = (done ++ [x]) ++ rest := by rw [hfull]; simp
    simp only [collect, List.foldl_cons]
    by_cases hx : x ∈ acc
    · rw [if_pos hx]
      refine ih (done ++ [x]) acc hfull2 hnd (fun v => ?_) hpw
      rw [List.mem_append, List.mem_singleton, hmem v]
      constructor
      · intro h; exact Or.inl h
      · rintro (h | h)
        · exact h
        · rw [h]; exact (hmem x).1 hx
    · rw [if_neg hx]
      have hxd : x ∉ done := fun h => hx ((hmem x).2 h)
      refine ih (done ++ [x]) (acc ++ [x]) hfull2 ?_ (fun v => ?_) ?_
      · rw [List.nodup_append]
        refine ⟨hnd, List.nodup_singleton x, ?_⟩
        intro a ha hax
        rw [List.mem_singleton] at hax
        exact hx (hax ▸ ha)
      · simp only [List.mem_append, List.mem_singleton, hmem v]
      · rw [List.pairwise_append]
        refine ⟨hpw, List.pairwise_singleton _ _, ?_⟩
        intro a ha b hb
        rw [List.mem_singleton] at hb
        subst hb
        have had : a ∈ done := (hmem a).1 ha
        rw [hfull, List.indexOf_append_of_mem had, List.indexOf_append_of_not_mem hxd,
          List.indexOf_cons_self, Nat.add_zero]
        exact List.indexOf_lt_length.2 had

theorem mapGet_appendIfNew (res : List (String × List String)) (key value k2 : String) :
    mapGet (appendIfNew res key value) k2 =
      if k2 = key then (if value ∈ mapGet res key then mapGet res key
        else mapGet res key ++ [value])
      else mapGet res k2 := by
  unfold appendIfNew
  by_cases hv : value ∈ mapGet res key
  · rw [if_pos hv, if_pos hv]
    by_cases hk : k2 = key
    · rw [if_pos hk, hk]
    · rw [if_neg hk]
  · rw [if_neg hv, if_neg hv, mapGet_mapSet]

theorem keys_appendIfNew (res : List (String × List String)) (key value : String)
    (hk : key ∈ res.map Prod.fst) :
    (appendIfNew res key value).map Prod.fst = res.map Prod.fst := by
  unfold appendIfNew
  split
  · rfl
  · exact keys_mapSet _ _ _ hk

theorem filterLoop_spec (results : List RepoSecretDetection) :
    ∀ res : List (String × List String),
      res.map Prod.fst = ["location", "severity", "branch_name"] →
      let out := results.foldl
        (fun res bean =>
          let res := appendIfNew res "location" bean.Target
          let res := appendIfNew res "severity" bean.Severity
          let res := appendIfNew res "branch_name" bean.BranchName
          res) res
      out.map Prod.fst = ["location", "severity", "branch_name"] ∧
      mapGet out "location" =
        collect (mapGet res "location") (results.map (fun r => r.Target)) ∧
      mapGet out "severity" =
        collect (mapGet res "severity") (results.map (fun r => r.Severity)) ∧
      mapGet out "branch_name" =
        collect (mapGet res "branch_name") (results.map (fun r => r.BranchName)) := by
  induction results with
  | nil =>
    intro res hk
    exact ⟨hk, rfl, rfl, rfl⟩
  | cons bean rest ih =>
    intro res hk
    have k1 : (appendIfNew res "location" bean.Target).map Prod.fst =
        ["location", "severity", "branch_name"] := by
      rw [keys_appendIfNew _ _ _ (by rw [hk]; decide), hk]
    have k2 : (appendIfNew (appendIfNew res "location" bean.Target) "severity"
        bean.Severity).map Prod.fst = ["location", "severity", "branch_name"] := by
      rw [keys_appendIfNew _ _ _ (by rw [k1]; decide), k1]
    have k3 : (appendIfNew (appendIfNew (appendIfNew res "location" bean.Target) "severity"
        bean.Severity) "branch_name" bean.BranchName).map Prod.fst =
        ["location", "severity", "branch_name"] := by
      rw [keys_appendIfNew _ _ _ (by rw [k2]; decide), k2]
    have h := ih _ k3
    simp only [List.foldl_cons, List.map_cons, collect] at h ⊢
    refine ⟨h.1, ?_, ?_, ?_⟩
    · rw [h.2.1]
      simp only [mapGet_appendIfNew]
      simp
    · rw [h.2.2.1]
      simp only [mapGet_appendIfNew]
      simp
    · rw [h.2.2.2]
      simp only [mapGet_appendIfNew]
      simp

/-- C8: for every list of fetched rows the returned map has exactly the keys
`location`, `severity` and `branch_name`, and each list holds the values of
the rows' `Target`, `Severity` and `BranchName` field respectively: no value
twice, exactly the values that occur, in the order of first occurrence. -/
theorem GetListSecretDetectionFilter_first_seen (results : List RepoSecretDetection) :
    (GetListSecretDetectionFilter (some results)).map Prod.fst =
      ["location", "severity", "branch_name"] ∧
    FirstSeen (results.map (fun r => r.Target))
      (mapGet (GetListSecretDetectionFilter (some results)) "location") ∧
    FirstSeen (results.map (fun r => r.Severity))
      (mapGet (GetListSecretDetectionFilter (some results)) "severity") ∧
    FirstSeen (results.map (fun r => r.BranchName))
      (mapGet (GetListSecretDetectionFilter (some results)) "branch_name") := by
  have h := filterLoop_spec results [("location", []), ("severity", []), ("branch_name", [])] rfl
  have base : ∀ full : List String, FirstSeen full (collect [] full) := fun full =>
    collect_firstSeen full full [] [] rfl List.nodup_nil (fun v => Iff.rfl) List.Pairwise.nil
  simp only [GetListSecretDetectionFilter]
  refine ⟨h.1, ?_, ?_, ?_⟩
  · rw [h.2.1]; exact base _
  · rw [h.2.2.1]; exact base _
  · rw [h.2.2.2]; exact base _

theorem sqlLike_percent (text : List Char) : sqlLike ['%'] text = true := by
  simp only [sqlLike, if_true, List.any_eq_true]
  exact ⟨[], (List.mem_tails _ _).2 List.nil_suffix, rfl⟩

theorem sqlLike_literal_then_percent (s : List Char) (h1 : '%' ∉ s) (h2 : '_' ∉ s) :
    ∀ text, sqlLike (s ++ ['%']) text = true ↔ s <+: text := by
  induction s with
  | nil =>
    intro text
    simp [sqlLike_percent]
  | cons c s ih =>
    intro text
    simp only [List.mem_cons, not_or] at h1 h2
    have hc1 : ¬ c = '%' := fun e => h1.1 e.symm
    have hc2 : ¬ c = '_' := fun e => h2.1 e.symm
    cases text with
    | nil => simp [sqlLike, hc1]
    | cons d rest =>
      have hstep : sqlLike (c :: s ++ ['%']) (d :: rest) =
          ((decide (c = '_') || decide (c = d)) && sqlLike (s ++ ['%']) rest) := by
        simp only [List.cons_append, sqlLike, if_neg hc1]
        rfl
      rw [hstep, Bool.and_eq_true, ih h1.2 h2.2 rest, List.cons_prefix_cons]
      simp [hc2]

/-- A pattern `%s%` whose `s` holds no wildcard matches exactly the texts
that contain `s` as a contiguous substring. -/
theorem sqlLike_percent_literal_percent (s text : List Char) (h1 : '%' ∉ s) (h2 : '_' ∉ s) :
    sqlLike ('%' :: (s ++ ['%'])) text = true ↔ s <:+: text := by
  simp only [sqlLike, if_true, List.any_eq_true, sqlLike_literal_then_percent s h1 h2,
    List.mem_tails, List.infix_iff_prefix_suffix]
  constructor
  · rintro ⟨u, hu, hp⟩; exact ⟨u, hp, hu⟩
  · rintro ⟨u, hp, hu⟩; exact ⟨u, hu, hp⟩

theorem builderLike_wrapped (s text : String) :
    builderLike ("%" ++ s ++ "%") text = sqlLike ('%' :: (s.data ++ ['%'])) text.data := by
  have hd : ("%" ++ s ++ "%").data = '%' :: (s.data ++ ['%']) := by
    simp [String.data_append]
  simp only [builderLike, hd, List.head?_cons, true_or, if_true]

theorem wrapped_ne_empty (s : String) : "%" ++ s ++ "%" ≠ "" := by
  intro h
  have hd : ("%" ++ s ++ "%").data = '%' :: (s.data ++ ['%']) := by
    simp [String.data_append]
  rw [h] at hd
  simp at hd

/-- C6 (as amended): with no `q` in the filter, the call returns exactly the
stored records whose `Target`, `Severity` and `BranchName` equal the filter's
`location`, `severity` and `branch_name` wherever those are non-empty, and
whose `RepoID` equals `repoID` when `repoID` is not 0; with `repoID = 0` no
repository condition is applied.  A nil filter map behaves as an empty one. -/
theorem ListRepoSecretDetections_filter (toLower sqlLower : String → String)
    (rows : List RepoSecretDetection) (repoID : Int) (filter : String → String)
    (hq : filter "q" = "") :
    ListRepoSecretDetections toLower sqlLower rows repoID (some filter) =
      rows.filter (fun r => decide (
        (repoID = 0 ∨ r.RepoID = repoID) ∧
        (filter "location" = "" ∨ r.Target = filter "location") ∧
        (filter "severity" = "" ∨ r.Severity = filter "severity") ∧
        (filter "branch_name" = "" ∨ r.BranchName = filter "branch_name"))) ∧
    ListRepoSecretDetections toLower sqlLower rows repoID none =
      rows.filter (fun r => decide (repoID = 0 ∨ r.RepoID = repoID)) := by
  constructor
  · simp only [ListRepoSecretDetections, FindAndCount, hq]
    apply List.filter_congr
    intro r _
    by_cases h0 : repoID = 0 <;> by_cases h1 : filter "location" = "" <;>
      by_cases h2 : filter "severity" = "" <;> by_cases h3 : filter "branch_name" = "" <;>
      simp [RepoSecretDetectionSearchOptions.ToConds, emptyDetection, h0, h1, h2, h3, Bool.and_assoc]
  · simp only [ListRepoSecretDetections, FindAndCount]
    apply List.filter_congr
    intro r _
    by_cases h0 : repoID = 0 <;>
      simp [RepoSecretDetectionSearchOptions.ToConds, emptyDetection, h0]

/-- An instance: three records of two repositories, filtered by severity for repository 7. -/
theorem ListRepoSecretDetections_filter_witness :
    singleFilter "severity" "high" "q" = "" ∧
    ListRepoSecretDetections asciiLower asciiLower
        [detectionRow 1 7 "high" "AWS key", detectionRow 2 7 "low" "Password",
         detectionRow 3 8 "high" "Token"] 7 (some (singleFilter "severity" "high")) =
      [detectionRow 1 7 "high" "AWS key"] :=
  ⟨by decide,
    ((ListRepoSecretDetections_filter asciiLower asciiLower
      [detectionRow 1 7 "high" "AWS key", detectionRow 2 7 "low" "Password",
       detectionRow 3 8 "high" "Token"] 7 (singleFilter "severity" "high") (by decide)).1).trans
      (by decide)⟩

/-- C6 (counterexample): with `repoID = 0` and the filter `{severity: "high"}`
the call returns a record of repository 7, whose `RepoID` is not 0. -/
theorem ListRepoSecretDetections_repo_zero_returns_other_repos :
    ListRepoSecretDetections asciiLower asciiLower
        [detectionRow 1 7 "high" "AWS key", detectionRow 2 7 "low" "Password"] 0
        (some (singleFilter "severity" "high")) =
      [detectionRow 1 7 "high" "AWS key"] ∧
    (detectionRow 1 7 "high" "AWS key").RepoID ≠ 0 := by
  decide

/-- C7 (as amended): for a non-empty query `q`, a stored record of the
repository is returned exactly when its lower-cased title matches the SQL
pattern `%` + lower-cased `q` + `%`; when the lower-cased `q` holds neither
`%` nor `_`, that is exactly when it occurs as a contiguous substring of the
lower-cased title. -/
theorem ListRepoSecretDetections_query (toLower sqlLower : String → String)
    (rows : List RepoSecretDetection) (repoID : Int) (q : String) (r : RepoSecretDetection)
    (hq : q ≠ "") (hr : r ∈ rows) (hrepo : r.RepoID = repoID) :
    (r ∈ ListRepoSecretDetections toLower sqlLower rows repoID (some (singleFilter "q" q)) ↔
      sqlLike ('%' :: ((toLower q).data ++ ['%'])) (sqlLower r.Title).data = true) ∧
    ('%' ∉ (toLower q).data → '_' ∉ (toLower q).data →
      (r ∈ ListRepoSecretDetections toLower sqlLower rows repoID (some (singleFilter "q" q)) ↔
        (toLower q).data <:+: (sqlLower r.Title).data)) := by
  have hmem : r ∈ ListRepoSecretDetections toLower sqlLower rows repoID
        (some (singleFilter "q" q)) ↔
      sqlLike ('%' :: ((toLower q).data ++ ['%'])) (sqlLower r.Title).data = true := by
    have e1 : singleFilter "q" q "q" = q := by simp [singleFilter]
    have e2 : singleFilter "q" q "location" = "" := by simp [singleFilter]
    have e3 : singleFilter "q" q "severity" = "" := by simp [singleFilter]
    have e4 : singleFilter "q" q "branch_name" = "" := by simp [singleFilter]
    simp only [ListRepoSecretDetections, FindAndCount, e1, e2, e3, e4, List.mem_filter]
    by_cases h0 : repoID = 0
    · simp [RepoSecretDetectionSearchOptions.ToConds, emptyDetection, h0, hq, hr,
        wrapped_ne_empty, builderLike_wrapped]
    · simp [RepoSecretDetectionSearchOptions.ToConds, emptyDetection, h0, hq, hr, hrepo,
        wrapped_ne_empty, builderLike_wrapped]
  refine ⟨hmem, fun h1 h2 => ?_⟩
  rw [hmem, sqlLike_percent_literal_percent _ _ h1 h2]

/-- An instance: the query `KEY` against a record titled `AWS key`. -/
theorem ListRepoSecretDetections_query_witness :
    "KEY" ≠ "" ∧ detectionRow 1 7 "high" "AWS key" ∈ [detectionRow 1 7 "high" "AWS key"] ∧
    (detectionRow 1 7 "high" "AWS key").RepoID = 7 ∧
    '%' ∉ (asciiLower "KEY").data ∧ '_' ∉ (asciiLower "KEY").data ∧
    (detectionRow 1 7 "high" "AWS key" ∈
        ListRepoSecretDetections asciiLower asciiLower [detectionRow 1 7 "high" "AWS key"] 7
          (some (singleFilter "q" "KEY")) ↔
      (asciiLower "KEY").data <:+: (asciiLower (detectionRow 1 7 "high" "AWS key").Title).data) :=
  ⟨by decide, by decide, by decide, by decide, by decide,
    (ListRepoSecretDetections_query asciiLower asciiLower [detectionRow 1 7 "high" "AWS key"] 7
      "KEY" (detectionRow 1 7 "high" "AWS key") (by decide) (by decide) (by decide)).2
      (by decide) (by decide)⟩

/-- C7 (counterexample): the query `_` returns the record titled `AWS key`,
although `_` does not occur in `aws key`: in the pattern `%_%` the underscore
matches any one character. -/
theorem ListRepoSecretDetections_underscore_matches_any :
    ListRepoSecretDetections asciiLower asciiLower [detectionRow 1 7 "high" "AWS key"] 7
        (some (singleFilter "q" "_")) = [detectionRow 1 7 "high" "AWS key"] ∧
    ¬ ((asciiLower "_").data <:+: (asciiLower (detectionRow 1 7 "high" "AWS key").Title).data) := by
  decide

theorem find?_eq_none_of_all_false {α : Type} (p : α → Bool) (l : List α)
    (h : ∀ x ∈ l, p x = false) : l.find? p = none := by
  induction l with
  | nil => rfl
  | cons a l ih =>
    simp only [List.find?_cons, h a (List.mem_cons_self _ _)]
    exact ih (fun x hx => h x (List.mem_cons_of_mem _ hx))

theorem find?_append_singleton {α : Type} (p : α → Bool) (l : List α) (a : α)
    (h : ∀ x ∈ l, p x = false) (ha : p a = true) : (l ++ [a]).find? p = some a := by
  induction l with
  | nil => simp [List.find?_cons, ha]
  | cons b l ih =>
    simp only [List.cons_append, List.find?_cons, h b (List.mem_cons_self _ _)]
    exact ih (fun x hx => h x (List.mem_cons_of_mem _ hx))

theorem map_update_fresh {α : Type} (key : α → Int) (f : α → α) (l : List α) (id : Int)
    (h : ∀ x ∈ l, key x < id) : l.map (fun r => if key r = id then f r else r) = l := by
  induction l with
  | nil => rfl
  | cons a l ih =>
    have ha : ¬ key a = id := by
      have := h a (List.mem_cons_self _ _)
      omega
    simp only [List.map_cons, if_neg ha]
    rw [ih (fun x hx => h x (List.mem_cons_of_mem _ hx))]

/-- C1: on a table whose keys are below the next auto-increment key and
which holds no row with the natural key, two successive calls with that key
leave the table with one row appended and nothing else changed; that row is
the only one with the key, and holds the `LastScanned` of the second call and
the `RuleID`, `Severity` and `Title` of the first. -/
theorem CreateOrUpdateRepoSecretDetection_twice (tbl : DetectionTable) (repoID : Int)
    (ruleID1 ruleID2 target category severity1 severity2 title1 title2 branchName
      codeContent : String) (lastScanned1 lastScanned2 : Int)
    (hfresh : ∀ r ∈ tbl.rows, r.ID < tbl.nextID)
    (hno : ∀ r ∈ tbl.rows, hasKey repoID category target branchName codeContent r = false) :
    (CreateOrUpdateRepoSecretDetection
        (CreateOrUpdateRepoSecretDetection tbl repoID ruleID1 target category severity1 title1
          branchName codeContent lastScanned1).1
        repoID ruleID2 target category severity2 title2 branchName codeContent
        lastScanned2).1.rows =
      tbl.rows ++ [recordOf tbl.nextID repoID ruleID1 target category severity1 title1
          branchName codeContent lastScanned2] ∧
    (CreateOrUpdateRepoSecretDetection
        (CreateOrUpdateRepoSecretDetection tbl repoID ruleID1 target category severity1 title1
          branchName codeContent lastScanned1).1
        repoID ruleID2 target category severity2 title2 branchName codeContent
        lastScanned2).1.rows.filter (hasKey repoID category target branchName codeContent) =
      [recordOf tbl.nextID repoID ruleID1 target category severity1 title1
          branchName codeContent lastScanned2] ∧
    (CreateOrUpdateRepoSecretDetection
        (CreateOrUpdateRepoSecretDetection tbl repoID ruleID1 target category severity1 title1
          branchName codeContent lastScanned1).1
        repoID ruleID2 target category severity2 title2 branchName codeContent
        lastScanned2).1.rows.filter
        (fun r => !hasKey repoID category target branchName codeContent r) = tbl.rows := by
  have hno2 : ∀ r ∈ tbl.rows, (fun r : RepoSecretDetection =>
      decide (r.Category = category ∧ r.RepoID = repoID ∧ r.Target = target ∧
        r.BranchName = branchName ∧ r.CodeContent = codeContent)) r = false := by
    intro r hr
    have := hno r hr
    simp only [hasKey, decide_eq_false_iff_not] at this ⊢
    tauto
  have hrows : (CreateOrUpdateRepoSecretDetection
        (CreateOrUpdateRepoSecretDetection tbl repoID ruleID1 target category severity1 title1
          branchName codeContent lastScanned1).1
        repoID ruleID2 target category severity2 title2 branchName codeContent
        lastScanned2).1.rows =
      tbl.rows ++ [recordOf tbl.nextID repoID ruleID1 target category severity1 title1
          branchName codeContent lastScanned2] := by
    have h1 : CreateOrUpdateRepoSecretDetection tbl repoID ruleID1 target category severity1
        title1 branchName codeContent lastScanned1 =
        ({ rows := tbl.rows ++ [recordOf tbl.nextID repoID ruleID1 target category severity1 title1
          branchName codeContent lastScanned1],
           nextID := tbl.nextID + 1 },
         recordOf tbl.nextID repoID ruleID1 target category severity1 title1
          branchName codeContent lastScanned1) := by
      simp only [CreateOrUpdateRepoSecretDetection, GetExistRepoSecretDetection,
        find?_eq_none_of_all_false _ _ hno2, recordOf]
    rw [h1]
    simp only [CreateOrUpdateRepoSecretDetection, GetExistRepoSecretDetection]
    rw [find?_append_singleton _ _ _ hno2 (by simp [recordOf])]
    simp only [recordOf, List.map_append, List.map_cons, List.map_nil, if_true]
    congr 1
    exact map_update_fresh (fun r : RepoSecretDetection => r.ID)
      (fun r => { r with LastScanned := lastScanned2 }) tbl.rows tbl.nextID hfresh
  refine ⟨hrows, ?_, ?_⟩
  · rw [hrows, List.filter_append]
    have : tbl.rows.filter (hasKey repoID category target branchName codeContent) = [] := by
      rw [List.filter_eq_nil_iff]
      intro r hr
      simp [hno r hr]
    rw [this]
    simp [hasKey, recordOf]
  · rw [hrows, List.filter_append]
    have : tbl.rows.filter
        (fun r => !hasKey repoID category target branchName codeContent r) = tbl.rows := by
      rw [List.filter_eq_self]
      intro r hr
      simp [hno r hr]
    rw [this]
    simp [hasKey, recordOf]

/-- An instance: two calls for branch `dev` on a table holding one row of branch `main`. -/
theorem CreateOrUpdateRepoSecretDetection_twice_witness :
    (∀ r ∈ [detectionRow 1 7 "high" "AWS key"], r.ID < 2) ∧
    (∀ r ∈ [detectionRow 1 7 "high" "AWS key"],
      hasKey 7 "secret" "config.yml" "dev" "key: value" r = false) ∧
    (CreateOrUpdateRepoSecretDetection
        (CreateOrUpdateRepoSecretDetection
          { rows := [detectionRow 1 7 "high" "AWS key"], nextID := 2 }
          7 "rule-a" "config.yml" "secret" "high" "First" "dev" "key: value" 100).1
        7 "rule-b" "config.yml" "secret" "low" "Second" "dev" "key: value" 200).1.rows =
      [detectionRow 1 7 "high" "AWS key"] ++
        [recordOf 2 7 "rule-a" "config.yml" "secret" "high" "First" "dev" "key: value" 200] :=
  ⟨by decide, by decide,
    (CreateOrUpdateRepoSecretDetection_twice
      { rows := [detectionRow 1 7 "high" "AWS key"], nextID := 2 } 7 "rule-a" "rule-b"
      "config.yml" "secret" "high" "low" "First" "Second" "dev" "key: value" 100 200
      (by decide) (by decide)).1⟩

/-! ## Supporting characterisations -/

/-- What two same-day calls of `UpdateVulnScanStatistic` store, for every pair
of quantities: one appended row, holding the second quantity unless that is 0,
in which case the first quantity stays. -/
theorem UpdateVulnScanStatistic_twice (tbl : VulnTable) (now1 now2 repoID : Int)
    (scanType : String) (q1 q2 : Int)
    (hfresh : ∀ r ∈ tbl.rows, r.ID < tbl.nextID)
    (hday : Truncate24h now2 = Truncate24h now1)
    (hno : ∀ r ∈ tbl.rows,
      ¬ (r.RepoID = repoID ∧ r.ScanType = scanType ∧ r.Date = Truncate24h now1)) :
    (UpdateVulnScanStatistic (UpdateVulnScanStatistic tbl now1 repoID scanType q1)
        now2 repoID scanType q2).rows =
      tbl.rows ++ [statOf tbl.nextID repoID scanType (if q2 = 0 then q1 else q2)
        (Truncate24h now1)] := by
  have hno2 : ∀ r ∈ tbl.rows, (fun r : VulnStatistic =>
      decide (r.RepoID = repoID ∧ r.ScanType = scanType ∧ r.Date = Truncate24h now1)) r =
        false := by
    intro r hr
    simpa using hno r hr
  have h1 : UpdateVulnScanStatistic tbl now1 repoID scanType q1 =
      { rows := tbl.rows ++ [statOf tbl.nextID repoID scanType q1 (Truncate24h now1)],
        nextID := tbl.nextID + 1 } := by
    simp only [UpdateVulnScanStatistic, find?_eq_none_of_all_false _ _ hno2, statOf]
  rw [h1]
  simp only [UpdateVulnScanStatistic, hday]
  rw [find?_append_singleton _ _ _ hno2 (by simp [statOf])]
  simp only [statOf, List.map_append, List.map_cons, List.map_nil, if_true]
  congr 1
  · exact map_update_fresh (fun r : VulnStatistic => r.ID)
      (fun r => updateNonZero
        { ID := tbl.nextID, RepoID := repoID, ScanType := scanType, VulnQuantity := q2,
          Date := Truncate24h now1 } r) tbl.rows tbl.nextID hfresh
  · simp only [updateNonZero, ite_self]

/-- What `mondayOfWeek` computes, for every instant: a Monday, which is the
Monday on or before the instant's day except on a Sunday, where it is the
following day. -/
theorem mondayOfWeek_cases (t : Int) :
    Weekday (mondayOfWeek t) = 1 ∧
    (Weekday t ≠ 0 →
      dayNumber (mondayOfWeek t) ≤ dayNumber t ∧ dayNumber t - dayNumber (mondayOfWeek t) ≤ 5) ∧
    (Weekday t = 0 → mondayOfWeek t = t + nsPerDay) := by
  simp only [mondayOfWeek, Weekday, AddDays, dayNumber, nsPerDay]
  refine ⟨?_, ?_, ?_⟩
  · omega
  · intro h
    omega
  · intro h
    omega

/-- With every stored row of one of the three fixed scan types, each of the
three aggregations returns a result. -/
theorem aggregations_return_on_fixed_scan_types (tbl : List VulnStatistic) (now repoID : Int)
    (h : ∀ r ∈ tbl, r.ScanType ∈ scanTypes) :
    (GetVulnScanStatisticsLast12Days tbl now repoID).isSome = true ∧
    (GetVulnScanStatisticsLast12Weeks tbl now repoID).isSome = true ∧
    (GetVulnScanStatisticsLast12Months tbl now repoID).isSome = true := by
  have hf : ∀ start, ∀ r ∈ findSince tbl repoID start, r.ScanType ∈ scanTypes :=
    fun start r hr => h r (List.mem_filter.1 hr).1
  refine ⟨?_, ?_, ?_⟩
  · obtain ⟨m, hm, -⟩ := bucketLoop_spec (fun stat => daysAgo now stat.Date) _ emptyResult
      emptyResult_ok (hf (startDate12Days now))
    simp only [GetVulnScanStatisticsLast12Days, hm, Option.isSome_some]
  · obtain ⟨m, hm, -⟩ := bucketLoop_spec (fun stat => weeksAgo now stat.Date) _ emptyResult
      emptyResult_ok (hf (startDate12Weeks now))
    simp only [GetVulnScanStatisticsLast12Weeks, hm, Option.isSome_some]
  · obtain ⟨m, hm, -⟩ := bucketLoop_spec (fun stat => monthsAgo now stat.Date) _ emptyResult
      emptyResult_ok (hf (startDate12Months now))
    simp only [GetVulnScanStatisticsLast12Months, hm, Option.isSome_some]

end Repo
